import Mathlib

/-!
# Verification of the kelox-fe client utilities

Shallow embedding, in Lean 4, of the client-local computations of the
`keloxmedical/kelox-fe` repository (a Next.js storefront): the CSV date
parser and header validation of the hospital product-import modal
(`src/app/hospital/[name]/page.tsx`), the cart-page fee and grouping logic
(cart page, `src/unnamed/part_002` / `part_003`), the offer-total
computations and status-guarded actions of `OfferModal.tsx` and the
my-offers page, the fetch plumbing of `src/lib/api.ts`, and the
profile/cart fetchers of `src/contexts/UserContext.tsx`.

Strings are modelled as `List Char`; JavaScript numbers are modelled as
exact rationals (`ℚ`) where arithmetic matters and as `Int`/`Nat` where the
code manipulates parsed integers.  Fallible steps are `Option`/`Except`.
-/

namespace Kelox

/-! ## JavaScript string primitives

Models of the JS string operations the repository uses: `String.prototype.trim`
(ECMAScript trims WhiteSpace ∪ LineTerminator), `parseInt(s, 10)`,
`String.prototype.split(sep)`, `String.prototype.toLowerCase` (ASCII range),
`String.prototype.startsWith`, and `String(n).padStart(2, '0')`. -/

/-- Characters removed by JavaScript `String.prototype.trim`:
TAB, LF, VT, FF, CR, SP, NBSP, plus the Unicode space separators,
line/paragraph separators and ZWNBSP. -/
def isJsWhitespace (c : Char) : Bool :=
  let n := c.toNat
  n = 9 || n = 10 || n = 11 || n = 12 || n = 13 || n = 32 || n = 160 ||
  n = 0x1680 || (0x2000 ≤ n && n ≤ 0x200A) || n = 0x2028 || n = 0x2029 ||
  n = 0x202F || n = 0x205F || n = 0x3000 || n = 0xFEFF

/-- JavaScript `String.prototype.trim`. -/
def jsTrim (l : List Char) : List Char :=
  ((l.dropWhile isJsWhitespace).reverse.dropWhile isJsWhitespace).reverse

/-- Decimal digit characters `'0'..'9'` (the digits accepted by
`parseInt(·, 10)`). -/
def isDigitChar (c : Char) : Bool :=
  48 ≤ c.toNat && c.toNat ≤ 57

/-- Numeric value of a decimal digit character. -/
def digitVal (c : Char) : Nat := c.toNat - 48

/-- Value of a list of decimal digit characters, most significant first. -/
def digitsVal (l : List Char) : Nat :=
  l.foldl (fun a c => 10 * a + digitVal c) 0

/-- The longest leading run of decimal digits, interpreted as a number;
`none` when there is no leading digit (JS `NaN`). -/
def leadingDigits (l : List Char) : Option Nat :=
  let ds := l.takeWhile isDigitChar
  if ds.isEmpty then none else some (digitsVal ds)

/-- JavaScript `parseInt(s, 10)`: skip leading whitespace, optional single
sign, then the longest prefix of decimal digits; `none` models `NaN`. -/
def jsParseInt (l : List Char) : Option Int :=
  let t := l.dropWhile isJsWhitespace
  if t.head? = some '-' then (leadingDigits t.tail).map (fun n => -(n : Int))
  else if t.head? = some '+' then (leadingDigits t.tail).map (fun n => (n : Int))
  else (leadingDigits t).map (fun n => (n : Int))

/-- JavaScript `String.prototype.split(sep)` for a one-character separator:
splitting the empty string gives `[""]`, and separators at the ends produce
empty fields. -/
def splitSep (sep : Char) : List Char → List (List Char)
  | [] => [[]]
  | c :: cs =>
    if c = sep then [] :: splitSep sep cs
    else
      match splitSep sep cs with
      | [] => [[c]]
      | g :: gs => (c :: g) :: gs

/-- ASCII case folding, the fragment of JS `toLowerCase` exercised here. -/
def jsToLower (c : Char) : Char :=
  if 65 ≤ c.toNat ∧ c.toNat ≤ 90 then Char.ofNat (c.toNat + 32) else c

/-- JavaScript `a.startsWith(b)`. -/
def strStartsWith : List Char → List Char → Bool
  | _, [] => true
  | [], _ :: _ => false
  | c :: cs, p :: ps => c = p && strStartsWith cs ps

/-- Fuel-driven decimal rendering; any fuel above the number itself is
enough, see `natDigitsAux_fuel`. -/
def natDigitsAux : Nat → Nat → List Char
  | 0, _ => []
  | fuel + 1, n =>
    if n < 10 then [Nat.digitChar n]
    else natDigitsAux fuel (n / 10) ++ [Nat.digitChar (n % 10)]

/-- Decimal rendering of a natural number (JS `String(n)` for a
non-negative integer). -/
def natDigits (n : Nat) : List Char := natDigitsAux (n + 1) n

/-- JS `String(n).padStart(2, '0')` for a non-negative integer. -/
def pad2 (n : Nat) : List Char :=
  let l := natDigits n
  if l.length < 2 then '0' :: l else l

/-! ## CSV date parser (`parseDate`, `src/app/hospital/[name]/page.tsx:1266-1293`)

```js
const parseDate = (dateStr) => {
  if (!dateStr || dateStr.trim() === '') return null;
  const normalized = dateStr.trim().replace(/[-\.]/g, '/');
  const parts = normalized.split('/');
  if (parts.length !== 3) return null;
  const day = parseInt(parts[0], 10);
  const month = parseInt(parts[1], 10);
  const year = parseInt(parts[2], 10);
  if (isNaN(day) || isNaN(month) || isNaN(year)) return null;
  if (day < 1 || day > 31) return null;
  if (month < 1 || month > 12) return null;
  if (year < 1900 || year > 2100) return null;
  const isoDate = `...`;  // yyyy-mm-dd, month/day padStart(2,'0')
  const testDate = new Date(isoDate);
  if (isNaN(testDate.getTime())) return null;
  return isoDate;
};
```
-/

/-- The `replace(/[-\.]/g, '/')` step: every `'-'` and `'.'` becomes `'/'`. -/
def normalizeSep (c : Char) : Char :=
  if c = '-' ∨ c = '.' then '/' else c

/-- Gregorian leap year, as used by the JS `Date` object. -/
def isLeapYear (y : Int) : Bool :=
  y % 4 = 0 && (decide (y % 100 ≠ 0) || y % 400 = 0)

/-- Number of days of month `m` of year `y` in the proleptic Gregorian
calendar of the JS `Date` object. -/
def daysInMonth (y m : Int) : Int :=
  if m = 2 then (if isLeapYear y then 29 else 28)
  else if m = 4 ∨ m = 6 ∨ m = 9 ∨ m = 11 then 30
  else 31

/-- Validity of `new Date("yyyy-mm-dd")` for a string already known to have
a four-digit year and two-digit month/day fields with `1 ≤ m ≤ 12` and
`1 ≤ d ≤ 31` (the shape `parseDate` builds): the ECMAScript ISO date-time
parser rejects exactly the strings whose day exceeds the month's length. -/
def isoDateValid (y m d : Int) : Bool :=
  decide (d ≤ daysInMonth y m)

/-- The ISO string `parseDate` builds:
`` `${year}-${String(month).padStart(2,'0')}-${String(day).padStart(2,'0')}` ``. -/
def isoRender (y m d : Int) : List Char :=
  natDigits y.toNat ++ '-' :: (pad2 m.toNat ++ '-' :: pad2 d.toNat)

/-- Tail of `parseDate` once the three components have been parsed:
the range checks, the ISO rendering and the `new Date` validity check,
in source order. -/
def parseDateNum (day month year : Int) : Option (List Char) :=
  if day < 1 ∨ 31 < day then none
  else if month < 1 ∨ 12 < month then none
  else if year < 1900 ∨ 2100 < year then none
  else if isoDateValid year month day then some (isoRender year month day)
  else none

/-- Model of `parseDate` of the CSV import modal, on `List Char`. -/
def parseDate (s : List Char) : Option (List Char) :=
  if jsTrim s = [] then none
  else
    match splitSep '/' ((jsTrim s).map normalizeSep) with
    | [p0, p1, p2] =>
      match jsParseInt p0, jsParseInt p1, jsParseInt p2 with
      | some day, some month, some year => parseDateNum day month year
      | _, _, _ => none
    | _ => none

/-- A date written with numeric day/month/year fields and one-character
separators, as in `dd/mm/yyyy` (statement-side construction for the
specification's "dates written as dd/mm/yyyy" etc.). -/
def renderDate (d m y : Nat) (sep1 sep2 : Char) : List Char :=
  pad2 d ++ sep1 :: (pad2 m ++ sep2 :: natDigits y)

/-! ### Supporting lemmas on the string primitives -/

theorem takeWhile_of_all {p : Char → Bool} {l : List Char}
    (h : ∀ c ∈ l, p c = true) : l.takeWhile p = l := by
  induction l with
  | nil => rfl
  | cons c cs ih =>
    rw [List.takeWhile_cons_of_pos (h c (List.mem_cons_self c cs))]
    exact congrArg (c :: ·) (ih fun x hx => h x (List.mem_cons_of_mem c hx))

theorem dropWhile_of_all_neg {p : Char → Bool} {l : List Char}
    (h : ∀ c ∈ l, p c = false) : l.dropWhile p = l := by
  cases l with
  | nil => rfl
  | cons c cs =>
    exact List.dropWhile_cons_of_neg (by simp [h c (List.mem_cons_self c cs)])

theorem jsTrim_of_no_ws {l : List Char}
    (h : ∀ c ∈ l, isJsWhitespace c = false) : jsTrim l = l := by
  unfold jsTrim
  rw [dropWhile_of_all_neg h, dropWhile_of_all_neg (by simpa using h),
    List.reverse_reverse]

theorem isDigitChar_toNat {c : Char} (h : isDigitChar c = true) :
    48 ≤ c.toNat ∧ c.toNat ≤ 57 := by
  simpa [isDigitChar] using h

theorem digit_not_ws {c : Char} (h : isDigitChar c = true) :
    isJsWhitespace c = false := by
  obtain ⟨h1, h2⟩ := isDigitChar_toNat h
  simp only [isJsWhitespace]
  simp only [Bool.or_eq_false_iff, decide_eq_false_iff_not, Bool.and_eq_false_iff,
    decide_eq_true_eq, not_le]
  omega

theorem digit_ne_of_toNat {c x : Char} (h : isDigitChar c = true)
    (hx : x.toNat < 48 ∨ 57 < x.toNat) : c ≠ x := by
  obtain ⟨h1, h2⟩ := isDigitChar_toNat h
  intro he
  subst he
  omega

theorem normalizeSep_digit {c : Char} (h : isDigitChar c = true) :
    normalizeSep c = c := by
  have h1 : c ≠ '-' := digit_ne_of_toNat h (by decide)
  have h2 : c ≠ '.' := digit_ne_of_toNat h (by decide)
  simp [normalizeSep, h1, h2]

theorem map_normalizeSep_digits {l : List Char}
    (h : ∀ c ∈ l, isDigitChar c = true) : l.map normalizeSep = l := by
  induction l with
  | nil => rfl
  | cons c cs ih =>
    simp only [List.map_cons]
    rw [normalizeSep_digit (h c (List.mem_cons_self c cs)),
      ih fun x hx => h x (List.mem_cons_of_mem c hx)]

theorem digitChar_isDigit {n : Nat} (h : n < 10) :
    isDigitChar (Nat.digitChar n) = true := by
  interval_cases n <;> decide

theorem digitVal_digitChar {n : Nat} (h : n < 10) :
    digitVal (Nat.digitChar n) = n := by
  interval_cases n <;> decide

theorem natDigitsAux_fuel {n : Nat} : ∀ {f1 f2 : Nat}, n < f1 → n < f2 →
    natDigitsAux f1 n = natDigitsAux f2 n := by
  induction n using Nat.strong_induction_on with
  | _ n ih =>
    intro f1 f2 h1 h2
    cases f1 with
    | zero => omega
    | succ fa =>
      cases f2 with
      | zero => omega
      | succ fb =>
        by_cases h : n < 10
        · simp [natDigitsAux, h]
        · simp only [natDigitsAux, if_neg h]
          rw [@ih (n / 10) (by omega) fa fb (by omega) (by omega)]

theorem natDigits_of_lt {n : Nat} (h : n < 10) :
    natDigits n = [Nat.digitChar n] := by
  simp [natDigits, natDigitsAux, h]

theorem natDigits_of_ge {n : Nat} (h : 10 ≤ n) :
    natDigits n = natDigits (n / 10) ++ [Nat.digitChar (n % 10)] := by
  show natDigitsAux (n + 1) n = natDigitsAux (n / 10 + 1) (n / 10) ++ _
  simp only [natDigitsAux, if_neg (by omega : ¬n < 10)]
  rw [@natDigitsAux_fuel (n / 10) n (n / 10 + 1) (by omega) (by omega)]
  rfl

theorem natDigits_ne_nil (n : Nat) : natDigits n ≠ [] := by
  by_cases h : n < 10
  · rw [natDigits_of_lt h]
    simp
  · rw [natDigits_of_ge (by omega)]
    simp

theorem natDigits_all_digits (n : Nat) :
    ∀ c ∈ natDigits n, isDigitChar c = true := by
  induction n using Nat.strong_induction_on with
  | _ n ih =>
    by_cases h : n < 10
    · rw [natDigits_of_lt h]
      intro c hc
      rw [List.mem_singleton] at hc
      subst hc
      exact digitChar_isDigit h
    · rw [natDigits_of_ge (by omega)]
      intro c hc
      rcases List.mem_append.mp hc with hc' | hc'
      · exact ih (n / 10) (Nat.div_lt_self (by omega) (by omega)) c hc'
      · rw [List.mem_singleton] at hc'
        subst hc'
        exact digitChar_isDigit (Nat.mod_lt n (by omega))

theorem digitsVal_append_digit (l : List Char) (c : Char) :
    digitsVal (l ++ [c]) = 10 * digitsVal l + digitVal c := by
  simp [digitsVal, List.foldl_append]

theorem digitsVal_natDigits (n : Nat) : digitsVal (natDigits n) = n := by
  induction n using Nat.strong_induction_on with
  | _ n ih =>
    by_cases h : n < 10
    · rw [natDigits_of_lt h]
      show 10 * 0 + digitVal (Nat.digitChar n) = n
      rw [digitVal_digitChar h]
      omega
    · rw [natDigits_of_ge (by omega), digitsVal_append_digit,
        ih (n / 10) (Nat.div_lt_self (by omega) (by omega)),
        digitVal_digitChar (Nat.mod_lt n (by omega))]
      omega

theorem digitsVal_cons_zero (l : List Char) :
    digitsVal ('0' :: l) = digitsVal l := by
  simp [digitsVal, List.foldl_cons]
  rfl

theorem pad2_all_digits (n : Nat) : ∀ c ∈ pad2 n, isDigitChar c = true := by
  by_cases h : (natDigits n).length < 2
  · simp only [pad2, if_pos h]
    intro c hc
    rcases List.mem_cons.mp hc with hc' | hc'
    · subst hc'
      decide
    · exact natDigits_all_digits n c hc'
  · simp only [pad2, if_neg h]
    exact natDigits_all_digits n

theorem pad2_ne_nil (n : Nat) : pad2 n ≠ [] := by
  by_cases h : (natDigits n).length < 2
  · simp [pad2, if_pos h]
  · simp only [pad2, if_neg h]
    exact natDigits_ne_nil n

theorem digitsVal_pad2 (n : Nat) : digitsVal (pad2 n) = n := by
  by_cases h : (natDigits n).length < 2
  · simp only [pad2, if_pos h]
    rw [digitsVal_cons_zero, digitsVal_natDigits]
  · simp only [pad2, if_neg h]
    exact digitsVal_natDigits n

theorem jsParseInt_all_digits {l : List Char} (h0 : l ≠ [])
    (h : ∀ c ∈ l, isDigitChar c = true) :
    jsParseInt l = some ((digitsVal l : Nat) : Int) := by
  obtain ⟨c, cs, rfl⟩ := List.exists_cons_of_ne_nil h0
  have hc : isDigitChar c = true := h c (List.mem_cons_self c cs)
  have hdrop : (c :: cs).dropWhile isJsWhitespace = c :: cs :=
    dropWhile_of_all_neg fun x hx => digit_not_ws (h x hx)
  have hminus : c ≠ '-' := digit_ne_of_toNat hc (by decide)
  have hplus : c ≠ '+' := digit_ne_of_toNat hc (by decide)
  unfold jsParseInt
  rw [hdrop]
  simp only [List.head?_cons]
  rw [if_neg (by simpa using hminus), if_neg (by simpa using hplus)]
  unfold leadingDigits
  rw [takeWhile_of_all h]
  simp

theorem jsParseInt_pad2 (n : Nat) : jsParseInt (pad2 n) = some (n : Int) := by
  rw [jsParseInt_all_digits (pad2_ne_nil n) (pad2_all_digits n), digitsVal_pad2]

theorem jsParseInt_natDigits (n : Nat) :
    jsParseInt (natDigits n) = some (n : Int) := by
  rw [jsParseInt_all_digits (natDigits_ne_nil n) (natDigits_all_digits n),
    digitsVal_natDigits]

theorem splitSep_ne_nil (sep : Char) (l : List Char) : splitSep sep l ≠ [] := by
  induction l with
  | nil => simp [splitSep]
  | cons c cs ih =>
    unfold splitSep
    split
    · simp
    · match hm : splitSep sep cs with
      | [] => exact absurd hm ih
      | g :: gs => simp

theorem splitSep_of_not_mem {sep : Char} {l : List Char}
    (h : ∀ c ∈ l, c ≠ sep) : splitSep sep l = [l] := by
  induction l with
  | nil => rfl
  | cons c cs ih =>
    unfold splitSep
    rw [if_neg (h c (List.mem_cons_self c cs)),
      ih fun x hx => h x (List.mem_cons_of_mem c hx)]

theorem splitSep_append {sep : Char} {l₁ l₂ : List Char}
    (h : ∀ c ∈ l₁, c ≠ sep) :
    splitSep sep (l₁ ++ sep :: l₂) = l₁ :: splitSep sep l₂ := by
  induction l₁ with
  | nil =>
    show splitSep sep (sep :: l₂) = [] :: splitSep sep l₂
    conv_lhs => rw [splitSep]
    rw [if_pos rfl]
  | cons c cs ih =>
    show splitSep sep (c :: (cs ++ sep :: l₂)) = (c :: cs) :: splitSep sep l₂
    conv_lhs => rw [splitSep]
    rw [if_neg (h c (List.mem_cons_self c cs)),
      ih fun x hx => h x (List.mem_cons_of_mem c hx)]

/-- The three separators the date parser accepts. -/
def dateSeps : List Char := ['/', '-', '.']

theorem sep_not_ws {sep : Char} (h : sep ∈ dateSeps) :
    isJsWhitespace sep = false := by
  fin_cases h <;> decide

theorem normalizeSep_sep {sep : Char} (h : sep ∈ dateSeps) :
    normalizeSep sep = '/' := by
  fin_cases h <;> decide

/-- Evaluating `parseDate` on a date written as three numeric fields with
any of the accepted separators reduces to the numeric tail
`parseDateNum`. -/
theorem parseDate_renderDate (d m y : Nat) (sep1 sep2 : Char)
    (h1 : sep1 ∈ dateSeps) (h2 : sep2 ∈ dateSeps) :
    parseDate (renderDate d m y sep1 sep2) =
      parseDateNum (d : Int) (m : Int) (y : Int) := by
  have hall : ∀ c ∈ renderDate d m y sep1 sep2, isJsWhitespace c = false := by
    intro c hc
    unfold renderDate at hc
    rcases List.mem_append.mp hc with hc' | hc'
    · exact digit_not_ws (pad2_all_digits d c hc')
    · rcases List.mem_cons.mp hc' with hc'' | hc''
      · subst hc''
        exact sep_not_ws h1
      · rcases List.mem_append.mp hc'' with hc3 | hc3
        · exact digit_not_ws (pad2_all_digits m c hc3)
        · rcases List.mem_cons.mp hc3 with hc4 | hc4
          · subst hc4
            exact sep_not_ws h2
          · exact digit_not_ws (natDigits_all_digits y c hc4)
  have htrim : jsTrim (renderDate d m y sep1 sep2) = renderDate d m y sep1 sep2 :=
    jsTrim_of_no_ws hall
  have hne : renderDate d m y sep1 sep2 ≠ [] := by
    unfold renderDate
    intro he
    exact pad2_ne_nil d (List.append_eq_nil.mp he).1
  have hmap : (renderDate d m y sep1 sep2).map normalizeSep =
      pad2 d ++ '/' :: (pad2 m ++ '/' :: natDigits y) := by
    unfold renderDate
    simp only [List.map_append, List.map_cons]
    rw [map_normalizeSep_digits (pad2_all_digits d),
      map_normalizeSep_digits (pad2_all_digits m),
      map_normalizeSep_digits (natDigits_all_digits y),
      normalizeSep_sep h1, normalizeSep_sep h2]
  have hsplit : splitSep '/' ((renderDate d m y sep1 sep2).map normalizeSep) =
      [pad2 d, pad2 m, natDigits y] := by
    rw [hmap,
      splitSep_append fun c hc =>
        digit_ne_of_toNat (pad2_all_digits d c hc) (by decide),
      splitSep_append fun c hc =>
        digit_ne_of_toNat (pad2_all_digits m c hc) (by decide),
      splitSep_of_not_mem fun c hc =>
        digit_ne_of_toNat (natDigits_all_digits y c hc) (by decide)]
  unfold parseDate
  rw [htrim, if_neg hne, hsplit]
  show (match jsParseInt (pad2 d), jsParseInt (pad2 m),
      jsParseInt (natDigits y) with
    | some day, some month, some year => parseDateNum day month year
    | _, _, _ => none) = parseDateNum (d : Int) (m : Int) (y : Int)
  rw [jsParseInt_pad2, jsParseInt_pad2, jsParseInt_natDigits]

theorem natDigits_length_of_lt {n : Nat} (h : n < 10) :
    (natDigits n).length = 1 := by
  rw [natDigits_of_lt h]
  rfl

theorem natDigits_length_of_ge {n : Nat} (h : 10 ≤ n) :
    (natDigits n).length = (natDigits (n / 10)).length + 1 := by
  rw [natDigits_of_ge h]
  simp

theorem natDigits_length_four {n : Nat} (h1 : 1000 ≤ n) (h2 : n ≤ 9999) :
    (natDigits n).length = 4 := by
  rw [natDigits_length_of_ge (by omega), natDigits_length_of_ge (by omega),
    natDigits_length_of_ge (by omega), natDigits_length_of_lt (by omega)]

theorem pad2_length_two {n : Nat} (h : n ≤ 99) : (pad2 n).length = 2 := by
  by_cases h10 : n < 10
  · have hl : (natDigits n).length = 1 := natDigits_length_of_lt h10
    simp [pad2, hl]
  · have hl : (natDigits n).length = 2 := by
      rw [natDigits_length_of_ge (by omega), natDigits_length_of_lt (by omega)]
    simp [pad2, hl]

/-- C1: The CSV date parser accepts a date written as three numeric
fields separated by `/`, `-` or `.` (day, month, four-digit year) exactly
when the day is in `1..31`, the month in `1..12`, the year in
`1900..2100`, and the day exists in that month (the `new Date` validity
check).  Out-of-range components are rejected with `null`. -/
theorem parseDate_accepts_iff_in_range (d m y : Nat) (sep : Char)
    (hsep : sep ∈ dateSeps) :
    (parseDate (renderDate d m y sep sep)).isSome = true ↔
      (1 ≤ d ∧ d ≤ 31 ∧ 1 ≤ m ∧ m ≤ 12 ∧ 1900 ≤ y ∧ y ≤ 2100 ∧
        (d : Int) ≤ daysInMonth (y : Int) (m : Int)) := by
  rw [parseDate_renderDate d m y sep sep hsep hsep]
  have hval : isoDateValid (y : Int) (m : Int) (d : Int) = true ↔
      (d : Int) ≤ daysInMonth (y : Int) (m : Int) := by
    simp [isoDateValid]
  unfold parseDateNum
  split_ifs with hd hm hy hv
  · simp only [Option.isSome_none, Bool.false_eq_true, false_iff]
    omega
  · simp only [Option.isSome_none, Bool.false_eq_true, false_iff]
    omega
  · simp only [Option.isSome_none, Bool.false_eq_true, false_iff]
    omega
  · rw [hval] at hv
    simp only [Option.isSome_some, true_iff]
    omega
  · rw [hval] at hv
    simp only [Option.isSome_none, Bool.false_eq_true, false_iff]
    omega

/-- Witness for C1 at the concrete input `29/02/2024` (a leap day). -/
theorem parseDate_accepts_iff_in_range_witness :
    '/' ∈ dateSeps ∧
      ((parseDate (renderDate 29 2 2024 '/' '/')).isSome = true ↔
        (1 ≤ 29 ∧ 29 ≤ 31 ∧ 1 ≤ 2 ∧ 2 ≤ 12 ∧ 1900 ≤ 2024 ∧ 2024 ≤ 2100 ∧
          ((29 : Nat) : Int) ≤ daysInMonth ((2024 : Nat) : Int)
            ((2 : Nat) : Int))) :=
  ⟨by decide, parseDate_accepts_iff_in_range 29 2 2024 '/' (by decide)⟩

/-- C10: Whenever `parseDate` returns a result, the result is the ISO
string `yyyy-mm-dd`: a four-digit year, a dash, the month zero-padded to
two digits, a dash, and the day zero-padded to two digits, where the three
numbers are exactly the ones `parseInt` extracted from the three separated
fields of the input.  Moreover the three separators may be mixed freely
within one input, because `-` and `.` are globally normalized to `/`
before splitting. -/
theorem parseDate_iso_output :
    (∀ s r, parseDate s = some r →
      ∃ day month year : Int,
        1 ≤ day ∧ day ≤ 31 ∧ 1 ≤ month ∧ month ≤ 12 ∧
        1900 ≤ year ∧ year ≤ 2100 ∧
        (∃ p0 p1 p2, splitSep '/' ((jsTrim s).map normalizeSep) = [p0, p1, p2] ∧
          jsParseInt p0 = some day ∧ jsParseInt p1 = some month ∧
          jsParseInt p2 = some year) ∧
        r = isoRender year month day ∧
        (natDigits year.toNat).length = 4 ∧
        (pad2 month.toNat).length = 2 ∧ (pad2 day.toNat).length = 2) ∧
    (∀ d m y sep1 sep2, sep1 ∈ dateSeps → sep2 ∈ dateSeps →
      parseDate (renderDate d m y sep1 sep2) =
        parseDate (renderDate d m y '/' '/')) := by
  constructor
  · intro s r h
    unfold parseDate at h
    split at h
    · exact absurd h (by simp)
    · split at h
      case _ p0 p1 p2 hsplit =>
        split at h
        case _ day month year hp0 hp1 hp2 =>
          refine ⟨day, month, year, ?_⟩
          unfold parseDateNum at h
          split_ifs at h with hd hm hy hv
          · have hr : r = isoRender year month day :=
              (Option.some_inj.mp h).symm
            refine ⟨by omega, by omega, by omega, by omega, by omega, by omega,
              ⟨p0, p1, p2, hsplit, hp0, hp1, hp2⟩, hr, ?_, ?_, ?_⟩
            · exact natDigits_length_four (by omega) (by omega)
            · exact pad2_length_two (by omega)
            · exact pad2_length_two (by omega)
        case _ =>
          exact absurd h (by simp)
      case _ =>
        exact absurd h (by simp)
  · intro d m y sep1 sep2 h1 h2
    rw [parseDate_renderDate d m y sep1 sep2 h1 h2,
      parseDate_renderDate d m y '/' '/' (by decide) (by decide)]

/-- Witness for C10 at the concrete input `"31-12.2024"`. -/
theorem parseDate_iso_output_witness :
    (parseDate ('3' :: '1' :: '-' :: '1' :: '2' :: '.' :: '2' :: '0' ::
        '2' :: '4' :: []) =
      some ('2' :: '0' :: '2' :: '4' :: '-' :: '1' :: '2' :: '-' :: '3' ::
        '1' :: [])) ∧
      (∃ day month year : Int,
        1 ≤ day ∧ day ≤ 31 ∧ 1 ≤ month ∧ month ≤ 12 ∧
        1900 ≤ year ∧ year ≤ 2100 ∧
        (∃ p0 p1 p2, splitSep '/'
            ((jsTrim ('3' :: '1' :: '-' :: '1' :: '2' :: '.' :: '2' :: '0' ::
              '2' :: '4' :: [])).map normalizeSep) = [p0, p1, p2] ∧
          jsParseInt p0 = some day ∧ jsParseInt p1 = some month ∧
          jsParseInt p2 = some year) ∧
        ('2' :: '0' :: '2' :: '4' :: '-' :: '1' :: '2' :: '-' :: '3' ::
          '1' :: []) = isoRender year month day ∧
        (natDigits year.toNat).length = 4 ∧
        (pad2 month.toNat).length = 2 ∧ (pad2 day.toNat).length = 2) :=
  ⟨by decide, parseDate_iso_output.1 _ _ (by decide)⟩

/-! ## CSV import: header validation
(`parseCsvLine` / `parseCsvData`, `src/app/hospital/[name]/page.tsx:1307-1349`)

```js
const parseCsvLine = (line) => { ... } // split on ',' outside quotes, trim each
const parseCsvData = (csvText) => {
  const lines = csvText.split('\n').filter(line => line.trim() !== '');
  if (lines.length < 2) { alert('CSV file is empty or invalid'); return; }
  const header = parseCsvLine(lines[0]).map(h => h.trim().toLowerCase());
  const requiredColumns = ['name', 'manufacturer', 'code', 'lotnumber',
                           'expirydate', 'price', 'quantity', 'unit'];
  const missingColumns = requiredColumns.filter(col => !header.includes(col));
  if (missingColumns.length > 0) { alert(`Missing required columns: ...`); return; }
  ... // row parsing
};
```
-/

/-- The quote-aware CSV field splitter `parseCsvLine`: `"` toggles the
in-quotes flag, `,` outside quotes ends the current field, each field is
trimmed when pushed.  `cur` holds the current field reversed. -/
def parseCsvLineAux : List Char → Bool → List Char → List (List Char)
  | [], _, cur => [jsTrim cur.reverse]
  | c :: cs, inQuotes, cur =>
    if c = '"' then parseCsvLineAux cs (!inQuotes) cur
    else if c = ',' ∧ inQuotes = false then
      jsTrim cur.reverse :: parseCsvLineAux cs inQuotes []
    else parseCsvLineAux cs inQuotes (c :: cur)

/-- Model of `parseCsvLine` of the CSV import modal. -/
def parseCsvLine (line : List Char) : List (List Char) :=
  parseCsvLineAux line false []

/-- The required columns of the CSV import, in source order. -/
def requiredColumns : List (List Char) :=
  ["name".data, "manufacturer".data, "code".data, "lotnumber".data,
   "expirydate".data, "price".data, "quantity".data, "unit".data]

/-- Model of `parseCsvLine(lines[0]).map(h => h.trim().toLowerCase())`. -/
def csvHeaderFields (line : List Char) : List (List Char) :=
  (parseCsvLine line).map (fun h => (jsTrim h).map jsToLower)

/-- Model of `requiredColumns.filter(col => !header.includes(col))`. -/
def missingColumns (header : List (List Char)) : List (List Char) :=
  requiredColumns.filter (fun col => !header.contains col)

/-- Model of `csvText.split('\n').filter(line => line.trim() !== '')`. -/
def csvLines (text : List Char) : List (List Char) :=
  (splitSep '\n' text).filter (fun l => !(jsTrim l).isEmpty)

/-- Model of `Array.prototype.join(', ')`. -/
def joinCommaSpace : List (List Char) → List Char
  | [] => []
  | [x] => x
  | x :: xs => x ++ ',' :: ' ' :: joinCommaSpace xs

/-- The alert text shown when required columns are missing. -/
def missingColsMsg (cols : List (List Char)) : List Char :=
  "Missing required columns: ".data ++ joinCommaSpace cols ++
    "\n\nPlease ensure your CSV has all required columns.".data

/-- Result of the validation prefix of `parseCsvData`: too few lines,
missing required columns (with the alert text), or proceed to row
parsing with the parsed header. -/
inductive CsvHeaderOutcome
  | emptyFile
  | missingCols (msg : List Char) (cols : List (List Char))
  | proceed (header : List (List Char))
deriving DecidableEq

/-- The line/header validation prefix of `parseCsvData`, up to the point
where row parsing starts. -/
def parseCsvHeaderPhase (text : List Char) : CsvHeaderOutcome :=
  let lines := csvLines text
  if lines.length < 2 then .emptyFile
  else
    let header := csvHeaderFields (lines.headD [])
    let missing := missingColumns header
    if missing.length > 0 then .missingCols (missingColsMsg missing) missing
    else .proceed header

theorem mem_infix_joinCommaSpace {col : List Char} :
    ∀ {cols : List (List Char)}, col ∈ cols → col <:+: joinCommaSpace cols := by
  intro cols
  induction cols with
  | nil => intro h; cases h
  | cons x xs ih =>
    intro h
    rcases List.mem_cons.mp h with rfl | hmem
    · cases xs with
      | nil => exact List.infix_rfl
      | cons y ys =>
        exact ⟨[], ',' :: ' ' :: joinCommaSpace (y :: ys), rfl⟩
    · cases xs with
      | nil => exact absurd hmem (List.not_mem_nil col)
      | cons y ys =>
        refine (ih hmem).trans ⟨x ++ [',', ' '], [], ?_⟩
        simp [joinCommaSpace]

/-- C2: The required-column validation of `parseCsvData`: when it
reports missing columns, the reported list holds exactly the required
columns absent from the parsed header, each one's name is contained in the
alert text (joined with `', '`), and row parsing is reached if and only if
the file has at least two non-blank lines and no required column is
missing. -/
theorem parseCsvData_missing_columns (text : List Char) :
    (∀ msg cols, parseCsvHeaderPhase text = .missingCols msg cols →
      (∀ col, col ∈ cols ↔
        (col ∈ requiredColumns ∧
          col ∉ csvHeaderFields ((csvLines text).headD []))) ∧
      msg = missingColsMsg cols ∧
      (∀ col ∈ cols, col <:+: msg)) ∧
    ((∃ h, parseCsvHeaderPhase text = .proceed h) ↔
      (2 ≤ (csvLines text).length ∧
        ∀ col ∈ requiredColumns,
          col ∈ csvHeaderFields ((csvLines text).headD []))) := by
  unfold parseCsvHeaderPhase
  by_cases hlen : (csvLines text).length < 2
  · rw [if_pos hlen]
    refine ⟨?_, ?_⟩
    · intro msg cols h
      cases h
    · constructor
      · rintro ⟨h, hh⟩
        cases hh
      · rintro ⟨h2, -⟩
        omega
  · rw [if_neg hlen]
    by_cases hmiss :
        (missingColumns (csvHeaderFields ((csvLines text).headD []))).length > 0
    · rw [if_pos hmiss]
      refine ⟨?_, ?_⟩
      · intro msg cols h
        cases h
        refine ⟨?_, rfl, ?_⟩
        · intro col
          unfold missingColumns
          rw [List.mem_filter]
          simp [List.elem_iff]
        · intro col hc
          refine (mem_infix_joinCommaSpace hc).trans
            ⟨"Missing required columns: ".data,
              "\n\nPlease ensure your CSV has all required columns.".data, ?_⟩
          simp [missingColsMsg]
      · constructor
        · rintro ⟨h, hh⟩
          cases hh
        · rintro ⟨-, hall⟩
          exfalso
          have hnil :
              missingColumns (csvHeaderFields ((csvLines text).headD [])) = [] := by
            unfold missingColumns
            rw [List.filter_eq_nil_iff]
            intro col hcol
            simpa [List.elem_iff] using hall col hcol
          rw [hnil] at hmiss
          simp at hmiss
    · rw [if_neg hmiss]
      refine ⟨?_, ?_⟩
      · intro msg cols h
        cases h
      · simp only [CsvHeaderOutcome.proceed.injEq, exists_eq', true_iff]
        refine ⟨by omega, fun col hcol => ?_⟩
        by_contra hnot
        have hmem : col ∈ missingColumns (csvHeaderFields ((csvLines text).headD [])) := by
          unfold missingColumns
          rw [List.mem_filter]
          simp only [Bool.not_eq_true', List.mem_cons]
          refine ⟨hcol, ?_⟩
          simpa [List.elem_iff] using hnot
        have hne :
            missingColumns (csvHeaderFields ((csvLines text).headD [])) ≠ [] :=
          fun he => by rw [he] at hmem; cases hmem
        have := List.length_pos.mpr hne
        omega

/-- A concrete CSV text whose header lacks six of the required columns
(witness input for C2). -/
def csvWitnessText : List Char := "name,code\nfoo,bar".data

/-- The columns missing from `csvWitnessText`. -/
def csvWitnessCols : List (List Char) :=
  ["manufacturer".data, "lotnumber".data, "expirydate".data,
   "price".data, "quantity".data, "unit".data]

/-- Witness for C2: a CSV whose header lacks six of the eight required
columns. -/
theorem parseCsvData_missing_columns_witness :
    (parseCsvHeaderPhase csvWitnessText =
      .missingCols (missingColsMsg csvWitnessCols) csvWitnessCols) ∧
    (∀ col, col ∈ csvWitnessCols ↔
      (col ∈ requiredColumns ∧
        col ∉ csvHeaderFields ((csvLines csvWitnessText).headD []))) :=
  ⟨by decide,
    ((parseCsvData_missing_columns csvWitnessText).1
      (missingColsMsg csvWitnessCols) csvWitnessCols (by decide)).1⟩

/-! ## Cart page: platform fee and totals (`src/unnamed/part_002:128-129`,
`src/unnamed/part_003:241-242,469-488`)

```js
const totalProductsCost = shoppingCart?.totalAmount || 0;
const platformFee = totalProductsCost * 0.10; // 10% of products cost
...
{(totalProductsCost + platformFee).toFixed(2)} euro + delivery fee
```

JS numbers are modelled as exact rationals. -/

/-- Model of `ProductResponse` of the cart page (fields used by rendering). -/
structure ProductResponse where
  id : Nat
  name : List Char
  code : List Char
  sellerHospitalName : List Char
deriving DecidableEq

/-- Model of `ShopItemDto` of `UserContext.tsx` / the cart page. -/
structure ShopItemDto where
  id : Nat
  product : ProductResponse
  quantity : ℚ
  price : ℚ
  type : List Char
  offerId : Option (List Char)
deriving DecidableEq

/-- Model of `ShoppingCartResponse` of `UserContext.tsx`. -/
structure ShoppingCartResponse where
  id : List Char
  hospitalId : Nat
  hospitalName : List Char
  items : List ShopItemDto
  createdAt : List Char
  updatedAt : List Char
  totalItems : Nat
  totalAmount : ℚ
deriving DecidableEq

/-- JS `x || 0` on a number: `0` is falsy, every other rational is truthy. -/
def jsOrZero (x : ℚ) : ℚ := if x = 0 then 0 else x

/-- Model of `const totalProductsCost = shoppingCart?.totalAmount || 0`. -/
def totalProductsCost (cart : Option ShoppingCartResponse) : ℚ :=
  match cart with
  | none => 0
  | some c => jsOrZero c.totalAmount

/-- Model of `const platformFee = totalProductsCost * 0.10`. -/
def platformFee (cart : Option ShoppingCartResponse) : ℚ :=
  totalProductsCost cart * (0.10 : ℚ)

/-- The order total rendered before delivery:
`totalProductsCost + platformFee`. -/
def cartTotalBeforeDelivery (cart : Option ShoppingCartResponse) : ℚ :=
  totalProductsCost cart + platformFee cart

/-- C3: The platform fee on the cart page is 10% of the cart's product
subtotal (its `totalAmount`), the displayed order total before delivery is
the subtotal plus that fee, and with no cart both the subtotal and the fee
are 0. -/
theorem platformFee_is_ten_percent (cart : Option ShoppingCartResponse) :
    platformFee cart = (10 / 100 : ℚ) * totalProductsCost cart ∧
    (∀ c, cart = some c → platformFee cart = (10 / 100 : ℚ) * c.totalAmount) ∧
    cartTotalBeforeDelivery cart = totalProductsCost cart + platformFee cart ∧
    (cart = none → totalProductsCost cart = 0 ∧ platformFee cart = 0) := by
  refine ⟨?_, ?_, rfl, ?_⟩
  · unfold platformFee
    ring
  · rintro c rfl
    unfold platformFee totalProductsCost jsOrZero
    by_cases h : c.totalAmount = 0
    · simp [h]
    · simp only [h, if_false]
      ring
  · rintro rfl
    exact ⟨rfl, by unfold platformFee totalProductsCost; ring⟩

/-- Witness for C3 at a concrete cart with `totalAmount = 250` and at the
absent cart. -/
theorem platformFee_is_ten_percent_witness :
    platformFee (some ⟨[], 1, [], [], [], [], 0, 250⟩) =
      (10 / 100 : ℚ) * (250 : ℚ) ∧
    (totalProductsCost none = 0 ∧ platformFee none = 0) :=
  ⟨(platformFee_is_ten_percent (some ⟨[], 1, [], [], [], [], 0, 250⟩)).2.1
      ⟨[], 1, [], [], [], [], 0, 250⟩ rfl,
    (platformFee_is_ten_percent none).2.2.2 rfl⟩

/-! ## Offer totals (`OfferModal.tsx:259-261` and `406-408`)

```js
const calculateTotal = () =>
  offerProducts.reduce((sum, p) => sum + (p.offerPrice * p.quantity), 0);
const calculateEditTotal = () =>
  editableProducts.reduce((sum, p) => sum + (p.offerPrice * p.quantity), 0);
```
-/

/-- Model of `OfferProduct` of `OfferModal.tsx` (also the element type of
`editableProducts`). -/
structure OfferProduct where
  productId : List Char
  productName : List Char
  sellerPrice : ℚ
  currency : List Char
  maxQuantity : ℚ
  unit : List Char
  quantity : ℚ
  offerPrice : ℚ
deriving DecidableEq

/-- Model of `calculateTotal` over the modal's `offerProducts`. -/
def calculateTotal (offerProducts : List OfferProduct) : ℚ :=
  offerProducts.foldl (fun sum p => sum + p.offerPrice * p.quantity) 0

/-- Model of `calculateEditTotal` over the modal's `editableProducts`. -/
def calculateEditTotal (editableProducts : List OfferProduct) : ℚ :=
  editableProducts.foldl (fun sum p => sum + p.offerPrice * p.quantity) 0

theorem foldl_add_eq_sum (f : OfferProduct → ℚ) :
    ∀ (l : List OfferProduct) (a : ℚ),
      l.foldl (fun sum p => sum + f p) a = a + (l.map f).sum := by
  intro l
  induction l with
  | nil => intro a; simp
  | cons x xs ih =>
    intro a
    rw [List.foldl_cons, ih]
    simp [List.map_cons, List.sum_cons]
    ring

/-- C4: The offer totals of the offer modal: both the view/create total
and the edit-mode total equal the sum over all line items of
(offer price × quantity), and both are 0 on an empty list. -/
theorem offer_totals_are_sums (ps : List OfferProduct) :
    calculateTotal ps = (ps.map (fun p => p.offerPrice * p.quantity)).sum ∧
    calculateEditTotal ps = (ps.map (fun p => p.offerPrice * p.quantity)).sum ∧
    calculateTotal [] = 0 ∧ calculateEditTotal [] = 0 := by
  refine ⟨?_, ?_, rfl, rfl⟩
  · rw [calculateTotal, foldl_add_eq_sum]
    ring
  · rw [calculateEditTotal, foldl_add_eq_sum]
    ring

/-! ## Cart item grouping (`groupItemsByOffer`, `src/unnamed/part_003:210-228`)

```js
const groupItemsByOffer = () => {
  if (!shoppingCart?.items) return { offerGroups: {}, individualItems: [] };
  const groups = {};
  const individual = [];
  shoppingCart.items.forEach(item => {
    if (item.offerId) {
      if (!groups[item.offerId]) { groups[item.offerId] = []; }
      groups[item.offerId].push(item);
    } else {
      individual.push(item);
    }
  });
  return { offerGroups: groups, individualItems: individual };
};
```

The `groups` object is modelled as an association list in first-insertion
order; `if (item.offerId)` is JS truthiness on a `string | null` field, so
`null` **and the empty string** both take the `individual` branch. -/

/-- JS truthiness of the `offerId : string | null` field: non-null and
non-empty. -/
def offerIdTruthy : Option (List Char) → Bool
  | none => false
  | some s => !s.isEmpty

/-- Model of `groups[k]`, i.e. the contents of the group keyed `k` (`[]` when the
key is absent). -/
def findGroup (k : List Char) :
    List (List Char × List ShopItemDto) → List ShopItemDto
  | [] => []
  | (k', v) :: gs => if k' = k then v else findGroup k gs

/-- Model of `if (!groups[k]) groups[k] = []; groups[k].push(item)`. -/
def insertGroup (k : List Char) (item : ShopItemDto) :
    List (List Char × List ShopItemDto) →
      List (List Char × List ShopItemDto)
  | [] => [(k, [item])]
  | (k', v) :: gs =>
    if k' = k then (k', v ++ [item]) :: gs
    else (k', v) :: insertGroup k item gs

/-- One iteration of the `forEach` body. -/
def groupStep (acc : List (List Char × List ShopItemDto) × List ShopItemDto)
    (item : ShopItemDto) :
    List (List Char × List ShopItemDto) × List ShopItemDto :=
  match item.offerId with
  | some s =>
    if s.isEmpty then (acc.1, acc.2 ++ [item])
    else (insertGroup s item acc.1, acc.2)
  | none => (acc.1, acc.2 ++ [item])

/-- Model of `groupItemsByOffer` of the cart page. -/
def groupItemsByOffer (cart : Option ShoppingCartResponse) :
    List (List Char × List ShopItemDto) × List ShopItemDto :=
  match cart with
  | none => ([], [])
  | some c => c.items.foldl groupStep ([], [])

theorem findGroup_insertGroup (k k' : List Char) (item : ShopItemDto)
    (g : List (List Char × List ShopItemDto)) :
    findGroup k (insertGroup k' item g) =
      if k' = k then findGroup k g ++ [item] else findGroup k g := by
  induction g with
  | nil =>
    by_cases h : k' = k
    · subst h
      simp [insertGroup, findGroup]
    · simp [insertGroup, findGroup, h]
  | cons a gs ih =>
    obtain ⟨ka, va⟩ := a
    by_cases h1 : ka = k'
    · subst h1
      by_cases h2 : ka = k
      · subst h2
        simp [insertGroup, findGroup]
      · have h3 : ¬ka = k := h2
        simp [insertGroup, findGroup, h3]
    · by_cases h2 : ka = k
      · subst h2
        have h3 : ¬k' = ka := fun he => h1 he.symm
        simp [insertGroup, findGroup, h1, h3]
      · simp [insertGroup, findGroup, h1, h2, ih]

/-- The predicate selecting the items of the offer group keyed `k`. -/
def inGroupPred (k : List Char) (it : ShopItemDto) : Bool :=
  offerIdTruthy it.offerId && decide (it.offerId = some k)

theorem groupFold_characterization (items : List ShopItemDto) :
    ∀ (g : List (List Char × List ShopItemDto)) (ind : List ShopItemDto),
      (∀ k, findGroup k (items.foldl groupStep (g, ind)).1 =
        findGroup k g ++ items.filter (inGroupPred k)) ∧
      (items.foldl groupStep (g, ind)).2 =
        ind ++ items.filter (fun it => !offerIdTruthy it.offerId) := by
  induction items with
  | nil => intro g ind; simp
  | cons it its ih =>
    intro g ind
    rw [List.foldl_cons]
    match hid : it.offerId with
    | none =>
      have hstep : groupStep (g, ind) it = (g, ind ++ [it]) := by
        simp [groupStep, hid]
      rw [hstep]
      refine ⟨fun k => ?_, ?_⟩
      · rw [(ih g (ind ++ [it])).1 k]
        have hp : inGroupPred k it = false := by
          simp [inGroupPred, offerIdTruthy, hid]
        rw [List.filter_cons, hp]
        simp
      · rw [(ih g (ind ++ [it])).2]
        have hp : (!offerIdTruthy it.offerId) = true := by
          simp [offerIdTruthy, hid]
        rw [List.filter_cons, hp]
        simp
    | some s =>
      by_cases hs : s.isEmpty
      · have hstep : groupStep (g, ind) it = (g, ind ++ [it]) := by
          simp [groupStep, hid, hs]
        rw [hstep]
        refine ⟨fun k => ?_, ?_⟩
        · rw [(ih g (ind ++ [it])).1 k]
          have hp : inGroupPred k it = false := by
            simp [inGroupPred, offerIdTruthy, hid, hs]
          rw [List.filter_cons, hp]
          simp
        · rw [(ih g (ind ++ [it])).2]
          have hp : (!offerIdTruthy it.offerId) = true := by
            simp [offerIdTruthy, hid, hs]
          rw [List.filter_cons, hp]
          simp
      · have hstep : groupStep (g, ind) it = (insertGroup s it g, ind) := by
          simp [groupStep, hid, hs]
        rw [hstep]
        refine ⟨fun k => ?_, ?_⟩
        · rw [(ih (insertGroup s it g) ind).1 k, findGroup_insertGroup]
          by_cases hk : s = k
          · subst hk
            have hp : inGroupPred s it = true := by
              simp [inGroupPred, offerIdTruthy, hid, hs]
            rw [if_pos rfl, List.filter_cons, hp]
            simp
          · have hp : inGroupPred k it = false := by
              simp [inGroupPred, hid, hk]
            rw [if_neg hk, List.filter_cons, hp]
            simp
        · rw [(ih (insertGroup s it g) ind).2]
          have hp : (!offerIdTruthy it.offerId) = false := by
            simp [offerIdTruthy, hid, hs]
          rw [List.filter_cons, hp]
          simp

/-- The concrete counterexample item for C5: its `offerId` is present but
is the empty string, which is falsy in JS. -/
def itemC5 : ShopItemDto :=
  ⟨1, ⟨1, [], [], []⟩, 1, 1, [], some []⟩

/-- The concrete counterexample cart for C5. -/
def cartC5 : ShoppingCartResponse :=
  ⟨[], 1, [], [itemC5], [], [], 1, 1⟩

/-- C5 counterexample: An item whose `offerId` is present (the empty
string, hence not `null`) is *not* placed in the group keyed by that
`offerId`: `groupItemsByOffer` leaves the offer groups empty and puts the
item into the individual-items list, because `if (item.offerId)` tests JS
truthiness, not presence. -/
theorem groupItemsByOffer_empty_offerId_counterexample :
    itemC5 ∈ cartC5.items ∧ itemC5.offerId ≠ none ∧
    findGroup [] (groupItemsByOffer (some cartC5)).1 = [] ∧
    (groupItemsByOffer (some cartC5)).1 = [] ∧
    (groupItemsByOffer (some cartC5)).2 = [itemC5] := by
  refine ⟨?_, ?_, ?_, ?_, ?_⟩ <;> decide

/-- C5 amended: `groupItemsByOffer` partitions the cart's items by JS
truthiness of `offerId`: every item with a non-null, non-empty `offerId`
is appended to the group keyed by that `offerId`, every item with a `null`
or empty-string `offerId` is appended to the individual-items list, and
each group (and the individual list) is exactly the order-preserving
filter of the cart's items for its key — so no item is dropped or
duplicated and relative order is preserved.  An absent cart yields empty
groups and an empty individual list. -/
theorem groupItemsByOffer_partition (c : ShoppingCartResponse) :
    (∀ k, findGroup k (groupItemsByOffer (some c)).1 =
      c.items.filter (inGroupPred k)) ∧
    (groupItemsByOffer (some c)).2 =
      c.items.filter (fun it => !offerIdTruthy it.offerId) ∧
    groupItemsByOffer none = ([], []) := by
  have h := groupFold_characterization c.items [] []
  refine ⟨fun k => ?_, ?_, rfl⟩
  · have := h.1 k
    simpa [groupItemsByOffer, findGroup] using this
  · have := h.2
    simpa [groupItemsByOffer] using this

/-! ## API layer (`src/lib/api.ts`)

`getAuthToken` / `setAuthToken` / `clearAuthToken` wrap browser local
storage under the single key `'kelox_jwt_token'` (guarded by
`typeof window === 'undefined'`), and `authenticatedFetch` builds the
request URL and headers.  Local storage is modelled as a map from keys to
stored strings; `BACKEND_API` (an environment-configured constant) is a
parameter `baseUrl`. -/

/-- Browser local storage: keys to stored strings. -/
def Storage : Type := List Char → Option (List Char)

/-- Model of `localStorage.getItem`. -/
def storageGetItem (s : Storage) (k : List Char) : Option (List Char) := s k

/-- Model of `localStorage.setItem`. -/
def storageSetItem (s : Storage) (k v : List Char) : Storage :=
  fun k' => if k' = k then some v else s k'

/-- Model of `localStorage.removeItem`. -/
def storageRemoveItem (s : Storage) (k : List Char) : Storage :=
  fun k' => if k' = k then none else s k'

/-- The browser environment seen by `api.ts`: whether `window` exists
(client vs. server rendering) and the local storage contents. -/
structure BrowserEnv where
  hasWindow : Bool
  storage : Storage

/-- The fixed local-storage key `'kelox_jwt_token'`. -/
def jwtStorageKey : List Char := "kelox_jwt_token".data

/-- Model of `getAuthToken()`. -/
def getAuthToken (env : BrowserEnv) : Option (List Char) :=
  if env.hasWindow then storageGetItem env.storage jwtStorageKey else none

/-- Model of `setAuthToken(token)`. -/
def setAuthToken (token : List Char) (env : BrowserEnv) : BrowserEnv :=
  if env.hasWindow then
    { env with storage := storageSetItem env.storage jwtStorageKey token }
  else env

/-- Model of `clearAuthToken()`. -/
def clearAuthToken (env : BrowserEnv) : BrowserEnv :=
  if env.hasWindow then
    { env with storage := storageRemoveItem env.storage jwtStorageKey }
  else env

/-- C8: In a browser context, JWT persistence is a round trip under the
single fixed key: `getAuthToken` after `setAuthToken t` returns `t`,
`getAuthToken` after `clearAuthToken` returns `null`, and neither
operation touches any other local-storage key (they are the only
storage-writing operations of the API layer). -/
theorem jwt_token_round_trip (env : BrowserEnv) (t : List Char)
    (hw : env.hasWindow = true) :
    getAuthToken (setAuthToken t env) = some t ∧
    getAuthToken (clearAuthToken env) = none ∧
    (∀ k, k ≠ jwtStorageKey →
      (setAuthToken t env).storage k = env.storage k ∧
      (clearAuthToken env).storage k = env.storage k) := by
  refine ⟨?_, ?_, ?_⟩
  · simp [getAuthToken, setAuthToken, storageGetItem, storageSetItem, hw]
  · simp [getAuthToken, clearAuthToken, storageGetItem, storageRemoveItem, hw]
  · intro k hk
    constructor
    · simp [setAuthToken, storageSetItem, hw, hk]
    · simp [clearAuthToken, storageRemoveItem, hw, hk]

/-- A concrete browser environment with empty storage (witness input). -/
def emptyBrowserEnv : BrowserEnv := ⟨true, fun _ => none⟩

/-- Witness for C8: round trip of the token `"jwt"` in a concrete browser
environment, and preservation of the unrelated key `"other"`. -/
theorem jwt_token_round_trip_witness :
    getAuthToken (setAuthToken "jwt".data emptyBrowserEnv) = some "jwt".data ∧
    getAuthToken (clearAuthToken emptyBrowserEnv) = none ∧
    (setAuthToken "jwt".data emptyBrowserEnv).storage "other".data =
      emptyBrowserEnv.storage "other".data :=
  ⟨(jwt_token_round_trip emptyBrowserEnv "jwt".data rfl).1,
    (jwt_token_round_trip emptyBrowserEnv "jwt".data rfl).2.1,
    ((jwt_token_round_trip emptyBrowserEnv "jwt".data rfl).2.2
      "other".data (by decide)).1⟩

/-! ### `authenticatedFetch` (`src/lib/api.ts:37-59`)

```js
const token = getAuthToken();
const headers = { 'Content-Type': 'application/json', ...options.headers };
if (token) { headers['Authorization'] = `Bearer ${token}`; }
const url = endpoint.startsWith('http') ? endpoint : `${BACKEND_API_URL}${endpoint}`;
return fetch(url, { ...options, headers });
```
-/

/-- A JS headers object: header names to values. -/
def HeadersMap : Type := List Char → Option (List Char)

/-- The literal `{ 'Content-Type': 'application/json' }`. -/
def defaultHeaders : HeadersMap :=
  fun k => if k = "Content-Type".data then some "application/json".data else none

/-- Object spread `{ ...base, ...extra }`: the later object wins. -/
def spreadHeaders (base extra : HeadersMap) : HeadersMap :=
  fun k =>
    match extra k with
    | some v => some v
    | none => base k

/-- Model of `headers[k] = v`. -/
def setHeader (h : HeadersMap) (k v : List Char) : HeadersMap :=
  fun k' => if k' = k then some v else h k'

/-- The URL and headers of the request `authenticatedFetch` issues. -/
def authenticatedFetchRequest (baseUrl : List Char) (env : BrowserEnv)
    (endpoint : List Char) (optionHeaders : HeadersMap) :
    List Char × HeadersMap :=
  let token := getAuthToken env
  let headers := spreadHeaders defaultHeaders optionHeaders
  let headers :=
    match token with
    | some t =>
      if t.isEmpty then headers
      else setHeader headers "Authorization".data ("Bearer ".data ++ t)
    | none => headers
  let url :=
    if strStartsWith endpoint "http".data then endpoint
    else baseUrl ++ endpoint
  (url, headers)

/-- A concrete environment whose stored token is the empty string
(counterexample input for C9). -/
def envEmptyToken : BrowserEnv :=
  ⟨true, storageSetItem (fun _ => none) jwtStorageKey []⟩

/-- C9 counterexample: With the empty string stored under
`'kelox_jwt_token'`, a token *is* stored (`getAuthToken` returns it,
non-null), yet the request carries no `Authorization` header, because
`if (token)` tests JS truthiness and `''` is falsy.  So "the request
carries an Authorization header exactly when a token is stored" fails as
stated. -/
theorem authenticatedFetch_empty_token_counterexample :
    getAuthToken envEmptyToken = some [] ∧
    (authenticatedFetchRequest "http://localhost:8080".data envEmptyToken
        "/api/marketplace/products".data (fun _ => none)).2
      "Authorization".data = none := by
  constructor
  · decide
  · decide

/-- C9 amended: `authenticatedFetch` requests the endpoint itself when
it starts with `'http'` and the configured base URL concatenated with the
endpoint otherwise; it sets `Authorization: Bearer <token>` exactly when
the stored token is truthy (present and non-empty); with no or an empty
stored token the `Authorization` header is whatever the caller's options
supply; and `Content-Type` is `application/json` unless the caller's
headers override it. -/
theorem authenticatedFetch_request_spec (baseUrl : List Char)
    (env : BrowserEnv) (endpoint : List Char) (optionHeaders : HeadersMap) :
    ((authenticatedFetchRequest baseUrl env endpoint optionHeaders).1 =
      if strStartsWith endpoint "http".data then endpoint
      else baseUrl ++ endpoint) ∧
    (∀ t, getAuthToken env = some t → t ≠ [] →
      (authenticatedFetchRequest baseUrl env endpoint optionHeaders).2
        "Authorization".data = some ("Bearer ".data ++ t)) ∧
    ((getAuthToken env = none ∨ getAuthToken env = some []) →
      (authenticatedFetchRequest baseUrl env endpoint optionHeaders).2
        "Authorization".data = optionHeaders "Authorization".data) ∧
    (optionHeaders "Content-Type".data = none →
      (authenticatedFetchRequest baseUrl env endpoint optionHeaders).2
        "Content-Type".data = some "application/json".data) ∧
    (∀ v, optionHeaders "Content-Type".data = some v →
      (authenticatedFetchRequest baseUrl env endpoint optionHeaders).2
        "Content-Type".data = some v) := by
  have hkey : ("Content-Type".data : List Char) ≠ "Authorization".data := by
    decide
  refine ⟨rfl, ?_, ?_, ?_, ?_⟩
  · intro t ht hne
    simp only [authenticatedFetchRequest, ht]
    rw [if_neg (by simpa using hne)]
    simp [setHeader]
  · intro h
    rcases h with h | h
    · simp only [authenticatedFetchRequest, h]
      simp [spreadHeaders, defaultHeaders]
      split
      · rename_i v hv
        rw [hv]
      · rename_i hv
        rw [hv]
    · simp only [authenticatedFetchRequest, h]
      simp only [List.isEmpty_nil, if_pos]
      simp [spreadHeaders, defaultHeaders]
      split
      · rename_i v hv
        rw [hv]
      · rename_i hv
        rw [hv]
  · intro h
    simp only [authenticatedFetchRequest]
    match hm : getAuthToken env with
    | some t =>
      by_cases ht : t.isEmpty
      · simp only [if_pos ht, spreadHeaders, h, defaultHeaders]
        simp
      · simp only [if_neg ht, setHeader, if_neg hkey, spreadHeaders, h,
          defaultHeaders]
        simp
    | none =>
      simp only [spreadHeaders, h, defaultHeaders]
      simp
  · intro v h
    simp only [authenticatedFetchRequest]
    match hm : getAuthToken env with
    | some t =>
      by_cases ht : t.isEmpty
      · simp only [if_pos ht, spreadHeaders, h]
      · simp only [if_neg ht, setHeader, if_neg hkey, spreadHeaders, h]
    | none =>
      simp only [spreadHeaders, h]

/-- A concrete environment storing the token `"tok"` (witness input). -/
def envTok : BrowserEnv :=
  ⟨true, storageSetItem (fun _ => none) jwtStorageKey "tok".data⟩

/-- Witness for the amended C9 at a concrete environment, endpoint and
empty caller headers. -/
theorem authenticatedFetch_request_spec_witness :
    ((authenticatedFetchRequest "http://localhost:8080".data envTok
        "/api/offers".data (fun _ => none)).1 =
      if strStartsWith "/api/offers".data "http".data then "/api/offers".data
      else "http://localhost:8080".data ++ "/api/offers".data) ∧
    ((authenticatedFetchRequest "http://localhost:8080".data envTok
        "/api/offers".data (fun _ => none)).2 "Authorization".data =
      some ("Bearer ".data ++ "tok".data)) ∧
    ((authenticatedFetchRequest "http://localhost:8080".data envTok
        "/api/offers".data (fun _ => none)).2 "Content-Type".data =
      some "application/json".data) :=
  ⟨(authenticatedFetch_request_spec "http://localhost:8080".data envTok
      "/api/offers".data (fun _ => none)).1,
    (authenticatedFetch_request_spec "http://localhost:8080".data envTok
      "/api/offers".data (fun _ => none)).2.1 "tok".data (by decide) (by decide),
    (authenticatedFetch_request_spec "http://localhost:8080".data envTok
      "/api/offers".data (fun _ => none)).2.2.2.1 rfl⟩

/-! ## Profile and cart fetchers (`src/contexts/UserContext.tsx:207-285`)

Both functions follow the same shape: `try { const response = await
fetch(...); if (!response.ok) { if (response.status === 404) { set state
to null; return; } throw ...; } const data = await response.json(); set
state; } catch (e) { console.error(e); set state to null; }`.  A fetch run
is modelled by its outcome: the promise rejects, or a response arrives
with a status and a parsed body (`none` models `response.json()`
throwing).  As `async` functions with a surrounding catch they always
resolve, which the embedding states as always returning `Except.ok`. -/

/-- Outcome of one `fetch` call together with `response.json()`. -/
inductive FetchOutcome (α : Type)
  | netError
  | response (status : Nat) (body : Option α)
deriving DecidableEq

/-- Model of `Response.ok`: status in the range 200–299. -/
def respOk (status : Nat) : Bool :=
  200 ≤ status && status ≤ 299

/-- Model of `HospitalProfile` (fields used by the fetchers). -/
structure HospitalProfile where
  id : Nat
  name : List Char
deriving DecidableEq

/-- The slice of `UserContext` state the two fetchers write. -/
structure ClientState where
  hospitalProfile : Option HospitalProfile
  shoppingCart : Option ShoppingCartResponse
deriving DecidableEq

/-- Try block of `fetchShoppingCartInternal`: the new cart state, or a
thrown error. -/
def fetchShoppingCartTry : FetchOutcome ShoppingCartResponse →
    Except (List Char) (Option ShoppingCartResponse)
  | .netError => .error "fetch failed".data
  | .response status body =>
    if !respOk status then
      if status = 404 then .ok none
      else .error "Failed to fetch shopping cart".data
    else
      match body with
      | none => .error "json".data
      | some cart => .ok (some cart)

/-- The catch handler applied to a try-block result: the async function
resolves either way (`setShoppingCart(null)` on a caught error). -/
def cartCatch : Except (List Char) (Option ShoppingCartResponse) →
    Except (List Char) (Option ShoppingCartResponse)
  | .ok s => .ok s
  | .error _ => .ok none

/-- Model of `fetchShoppingCartInternal`: the try block with its catch handler. -/
def fetchShoppingCartInternal (out : FetchOutcome ShoppingCartResponse) :
    Except (List Char) (Option ShoppingCartResponse) :=
  cartCatch (fetchShoppingCartTry out)

/-- Model of `token || jwtToken` on `string | null` values (empty string falsy). -/
def jsOrToken : Option (List Char) → Option (List Char) → Option (List Char)
  | some s, b => if s.isEmpty then b else some s
  | none, b => b

/-- Try block of `fetchHospitalProfile`: 404 means "user owns no
hospital"; on success the profile is stored, the cart fetch runs (it never
throws), and the profile is returned. -/
def fetchHospitalProfileTry : FetchOutcome HospitalProfile →
    FetchOutcome ShoppingCartResponse → ClientState →
    Except (List Char) (ClientState × Option HospitalProfile)
  | .netError, _, _ => .error "fetch failed".data
  | .response status body, cartOut, prior =>
    if !respOk status then
      if status = 404 then .ok ({ prior with hospitalProfile := none }, none)
      else .error "Failed to fetch hospital profile".data
    else
      match body with
      | none => .error "json".data
      | some profile =>
        let cartState :=
          match fetchShoppingCartInternal cartOut with
          | .ok c => c
          | .error _ => none
        .ok (⟨some profile, cartState⟩, some profile)

/-- The catch handler of `fetchHospitalProfile`
(`setHospitalProfile(null); return null`). -/
def profileCatch (prior : ClientState) :
    Except (List Char) (ClientState × Option HospitalProfile) →
    Except (List Char) (ClientState × Option HospitalProfile)
  | .ok r => .ok r
  | .error _ => .ok ({ prior with hospitalProfile := none }, none)

/-- The `if (!authToken) return null` guard in front of the try block. -/
def fetchHospitalProfileGuard : Option (List Char) →
    FetchOutcome HospitalProfile → FetchOutcome ShoppingCartResponse →
    ClientState → Except (List Char) (ClientState × Option HospitalProfile)
  | none, _, _, prior => .ok (prior, none)
  | some t, out, cartOut, prior =>
    if t.isEmpty then .ok (prior, none)
    else profileCatch prior (fetchHospitalProfileTry out cartOut prior)

/-- Model of `fetchHospitalProfile(token?)`: `authToken = token || jwtToken`, the
guard, the try block and the catch handler. -/
def fetchHospitalProfile (tokenArg jwt : Option (List Char))
    (out : FetchOutcome HospitalProfile)
    (cartOut : FetchOutcome ShoppingCartResponse) (prior : ClientState) :
    Except (List Char) (ClientState × Option HospitalProfile) :=
  fetchHospitalProfileGuard (jsOrToken tokenArg jwt) out cartOut prior

/-- C6: The profile and cart fetchers never propagate an exception
(they always resolve), treat HTTP 404 as "resource absent" (state set to
`null`, `null` returned) rather than an error, turn every other failure
(network rejection, non-ok status, JSON failure) into a logged `null`
state, and store/return a profile only on a successful response. -/
theorem fetch_error_handling :
    (∀ out, ∃ v, fetchShoppingCartInternal out = .ok v) ∧
    (∀ body, fetchShoppingCartInternal (.response 404 body) = .ok none) ∧
    (∀ status body, respOk status = false → status ≠ 404 →
      fetchShoppingCartInternal (.response status body) = .ok none) ∧
    (fetchShoppingCartInternal .netError = .ok none) ∧
    (∀ status c, respOk status = true →
      fetchShoppingCartInternal (.response status (some c)) = .ok (some c)) ∧
    (∀ tokenArg jwt out cartOut prior,
      ∃ v, fetchHospitalProfile tokenArg jwt out cartOut prior = .ok v) ∧
    (∀ t jwt cartOut prior body, t ≠ [] →
      fetchHospitalProfile (some t) jwt (.response 404 body) cartOut prior =
        .ok ({ prior with hospitalProfile := none }, none)) ∧
    (∀ t jwt status body cartOut prior, t ≠ [] →
      respOk status = false → status ≠ 404 →
      fetchHospitalProfile (some t) jwt (.response status body) cartOut prior =
        .ok ({ prior with hospitalProfile := none }, none)) ∧
    (∀ t jwt cartOut prior, t ≠ [] →
      fetchHospitalProfile (some t) jwt .netError cartOut prior =
        .ok ({ prior with hospitalProfile := none }, none)) ∧
    (∀ tokenArg jwt out cartOut prior st p,
      fetchHospitalProfile tokenArg jwt out cartOut prior = .ok (st, some p) →
      ∃ status, out = .response status (some p) ∧ respOk status = true ∧
        st.hospitalProfile = some p) := by
  have hcart : ∀ out, ∃ v, fetchShoppingCartInternal out = .ok v := by
    intro out
    unfold fetchShoppingCartInternal
    match fetchShoppingCartTry out with
    | .ok s => exact ⟨s, rfl⟩
    | .error e => exact ⟨none, rfl⟩
  refine ⟨hcart, ?_, ?_, rfl, ?_, ?_, ?_, ?_, ?_, ?_⟩
  · intro body
    simp [fetchShoppingCartInternal, fetchShoppingCartTry, cartCatch, respOk]
  · intro status body hbad h404
    simp [fetchShoppingCartInternal, fetchShoppingCartTry, cartCatch,
      hbad, h404]
  · intro status c hok
    simp [fetchShoppingCartInternal, fetchShoppingCartTry, cartCatch, hok]
  · intro tokenArg jwt out cartOut prior
    unfold fetchHospitalProfile
    match jsOrToken tokenArg jwt with
    | none => exact ⟨(prior, none), rfl⟩
    | some t =>
      simp only [fetchHospitalProfileGuard]
      by_cases ht : t.isEmpty
      · rw [if_pos ht]
        exact ⟨(prior, none), rfl⟩
      · rw [if_neg ht]
        match fetchHospitalProfileTry out cartOut prior with
        | .ok r => exact ⟨r, rfl⟩
        | .error e =>
          exact ⟨({ prior with hospitalProfile := none }, none), rfl⟩
  · intro t jwt cartOut prior body ht
    have ht' : t.isEmpty = false := by simpa using ht
    simp [fetchHospitalProfile, jsOrToken, fetchHospitalProfileGuard, ht',
      fetchHospitalProfileTry, profileCatch, respOk]
  · intro t jwt status body cartOut prior ht hbad h404
    have ht' : t.isEmpty = false := by simpa using ht
    simp [fetchHospitalProfile, jsOrToken, fetchHospitalProfileGuard, ht',
      fetchHospitalProfileTry, profileCatch, hbad, h404]
  · intro t jwt cartOut prior ht
    have ht' : t.isEmpty = false := by simpa using ht
    simp [fetchHospitalProfile, jsOrToken, fetchHospitalProfileGuard, ht',
      fetchHospitalProfileTry, profileCatch]
  · intro tokenArg jwt out cartOut prior st p h
    unfold fetchHospitalProfile at h
    match hj : jsOrToken tokenArg jwt with
    | none =>
      rw [hj] at h
      simp only [fetchHospitalProfileGuard, Except.ok.injEq, Prod.mk.injEq] at h
      exact absurd h.2 (by simp)
    | some t =>
      rw [hj] at h
      simp only [fetchHospitalProfileGuard] at h
      by_cases ht : t.isEmpty
      · rw [if_pos ht] at h
        simp only [Except.ok.injEq, Prod.mk.injEq] at h
        exact absurd h.2 (by simp)
      · rw [if_neg ht] at h
        match out with
        | .netError =>
          simp only [fetchHospitalProfileTry, profileCatch, Except.ok.injEq,
            Prod.mk.injEq] at h
          exact absurd h.2 (by simp)
        | .response status body =>
          refine ⟨status, ?_⟩
          simp only [fetchHospitalProfileTry] at h
          by_cases hok : respOk status
          · rw [hok] at h
            simp only [Bool.not_true, Bool.false_eq_true, if_false] at h
            match body with
            | none =>
              simp only [profileCatch, Except.ok.injEq, Prod.mk.injEq] at h
              exact absurd h.2 (by simp)
            | some profile =>
              simp only [profileCatch, Except.ok.injEq, Prod.mk.injEq,
                Option.some_inj] at h
              obtain ⟨hst, hp⟩ := h
              subst hp
              exact ⟨rfl, hok, by rw [← hst]⟩
          · rw [Bool.not_eq_true] at hok
            rw [hok] at h
            simp only [Bool.not_false, if_true] at h
            by_cases h404 : status = 404
            · rw [if_pos h404] at h
              simp only [profileCatch, Except.ok.injEq, Prod.mk.injEq] at h
              exact absurd h.2 (by simp)
            · rw [if_neg h404] at h
              simp only [profileCatch, Except.ok.injEq, Prod.mk.injEq] at h
              exact absurd h.2 (by simp)

/-- Concrete profile for the C6 witness. -/
def profileW : HospitalProfile := ⟨7, "General".data⟩

/-- Concrete prior client state for the C6 witness. -/
def priorW : ClientState := ⟨none, none⟩

/-- Concrete cart for the C6 witness. -/
def cartW : ShoppingCartResponse := ⟨[], 1, [], [], [], [], 0, 0⟩

/-- Witness for C6 at concrete outcomes: a 500 and a 200 cart fetch, a
404 / 500 / rejected profile fetch, and the only-on-success direction at a
successful profile fetch. -/
theorem fetch_error_handling_witness :
    fetchShoppingCartInternal (.response 500 none) = .ok none ∧
    fetchShoppingCartInternal (.response 200 (some cartW)) = .ok (some cartW) ∧
    fetchHospitalProfile (some "t".data) none (.response 404 none) .netError
        priorW = .ok ({ priorW with hospitalProfile := none }, none) ∧
    fetchHospitalProfile (some "t".data) none (.response 500 none) .netError
        priorW = .ok ({ priorW with hospitalProfile := none }, none) ∧
    fetchHospitalProfile (some "t".data) none .netError .netError
        priorW = .ok ({ priorW with hospitalProfile := none }, none) ∧
    (∃ status, (FetchOutcome.response 200 (some profileW)) =
        .response status (some profileW) ∧ respOk status = true ∧
      (⟨some profileW, none⟩ : ClientState).hospitalProfile = some profileW) :=
  ⟨fetch_error_handling.2.2.1 500 none (by decide) (by decide),
    fetch_error_handling.2.2.2.2.1 200 cartW (by decide),
    fetch_error_handling.2.2.2.2.2.2.1 "t".data none .netError priorW none
      (by decide),
    fetch_error_handling.2.2.2.2.2.2.2.1 "t".data none 500 none .netError
      priorW (by decide) (by decide) (by decide),
    fetch_error_handling.2.2.2.2.2.2.2.2.1 "t".data none .netError priorW
      (by decide),
    fetch_error_handling.2.2.2.2.2.2.2.2.2 (some "t".data) none
      (.response 200 (some profileW)) (.response 404 none) priorW
      ⟨some profileW, none⟩ profileW rfl⟩

/-! ## Offer status lifecycle on the client
(`OfferModal.tsx:477-496,577-669`, `src/app/my-offers/page.tsx`)

The client renders the backend-returned status and offers actions only
under the rendering guards of the chat-mode modal:

* outgoing tab: `status === 'PENDING'` shows *Edit Offer* / *Cancel offer*;
  `status === 'REJECTED'` shows *Re-open Offer*;
* incoming tab: `status === 'PENDING'` shows *Accept* / *Reject*.

`handleSubmitOffer` picks `PUT /api/offers/{id}/reopen` when
`isReopening && existingOffer`, `PUT /api/offers/{id}` for an existing
offer, `POST /api/offers` otherwise.  On the my-offers page the
`isReopeningOffer` flag is set only by `handleReopenOffer`, whose only
caller is the modal's `onReopen` callback, rendered only for a REJECTED
offer.  The page is modelled as a transition system whose events are the
source's handlers, enabled exactly under the source's rendering guards;
backend responses are adversarial event payloads. -/

/-- The `'PENDING' | 'ACCEPTED' | 'REJECTED'` union of `OfferResponse`. -/
inductive OfferStatus
  | pending
  | accepted
  | rejected
deriving DecidableEq

/-- The `'outgoing' | 'incoming'` tab union. -/
inductive OfferTab
  | outgoing
  | incoming
deriving DecidableEq

/-- Model of `OfferResponse` (fields the lifecycle logic uses). -/
structure OfferResponse where
  id : List Char
  hospitalId : Nat
  hospitalName : List Char
  status : OfferStatus
deriving DecidableEq

/-- The status badge renders `{existingOffer.status}` itself
(`OfferModal.tsx:577-585`). -/
def displayedStatus (o : OfferResponse) : OfferStatus := o.status

/-- The action buttons of the chat-mode offer modal. -/
inductive OfferAction
  | editOffer
  | cancelOffer
  | reopenOffer
  | acceptOffer
  | rejectOffer
deriving DecidableEq

/-- Actions rendered by the chat-mode modal for a tab and a
backend-returned status (`OfferModal.tsx:616-669`). -/
def chatModalActions : OfferTab → OfferStatus → List OfferAction
  | .outgoing, st =>
    (if st = .pending then [.editOffer, .cancelOffer] else []) ++
      (if st = .rejected then [.reopenOffer] else [])
  | .incoming, st =>
    if st = .pending then [.acceptOffer, .rejectOffer] else []

/-- The offer REST calls the client can issue. -/
inductive OfferRequest
  | createOffer
  | updateOffer (id : List Char)
  | reopenOffer (id : List Char)
  | acceptOffer (id : List Char)
  | rejectOffer (id : List Char)
  | cancelOffer (id : List Char)
deriving DecidableEq

/-- Endpoint selection of `handleSubmitOffer` (`OfferModal.tsx:477-496`):
reopen when `isReopening && existingOffer`, update for an existing offer,
create otherwise. -/
def submitOfferRequest : Bool → Option OfferResponse → OfferRequest
  | isReopening, some o =>
    if isReopening then .reopenOffer o.id else .updateOffer o.id
  | _, none => .createOffer

/-- The my-offers page state (`useState` hooks of `MyOffersPage`). -/
structure MyOffersPageState where
  offers : List OfferResponse
  activeTab : OfferTab
  selectedOffer : Option OfferResponse
  isReopeningOffer : Bool
  showEditOfferModal : Bool
  showChatModal : Bool
deriving DecidableEq

/-- Initial state of the page. -/
def initialPageState : MyOffersPageState :=
  ⟨[], .outgoing, none, false, false, false⟩

/-- Model of `refreshOffers` updates `selectedOffer` from the fetched list when an
offer with the same id is found (`page.tsx:134-141`). -/
def refreshSelected (selected : Option OfferResponse)
    (fetched : List OfferResponse) : Option OfferResponse :=
  match selected with
  | some o =>
    match fetched.find? (fun o' => o'.id == o.id) with
    | some o' => some o'
    | none => some o
  | none => none

/-- User/network events of the page.  Backend data (`fetched`, `updated`)
is adversarial. -/
inductive PageEvent
  | loadOffers (fetched : List OfferResponse)
  | switchTab (t : OfferTab)
  | joinConversation (o : OfferResponse)
  | clickAccept (updated : OfferResponse) (fetched : List OfferResponse)
  | clickReject (updated : OfferResponse) (fetched : List OfferResponse)
  | clickCancel (updated : OfferResponse) (fetched : List OfferResponse)
  | clickReopen
  | submitConfirm (fetched : List OfferResponse)
  | saveEditedOffer (fetched : List OfferResponse)
  | closeEditModal
  | closeChatModal
deriving DecidableEq

/-- Whether the selected offer has the given status. -/
def selectedHasStatus (s : MyOffersPageState) (st : OfferStatus) : Bool :=
  match s.selectedOffer with
  | some o => decide (o.status = st)
  | none => false

/-- Both modals are `fixed inset-0 z-50` overlays, so listing buttons are
clickable only with no modal open. -/
def noModalOpen (s : MyOffersPageState) : Bool :=
  !s.showEditOfferModal && !s.showChatModal

/-- Enabledness of each event, from the source's rendering guards: the
accept/reject buttons render only on the incoming tab for a PENDING
offer, cancel and the in-chat edit only on the outgoing tab for a PENDING
offer, re-open only on the outgoing tab for a REJECTED offer
(`OfferModal.tsx:616-669`); the edit-modal confirm needs the modal open
with a selected offer (`page.tsx:357-375`). -/
def eventEnabled (s : MyOffersPageState) : PageEvent → Bool
  | .loadOffers _ => noModalOpen s
  | .switchTab _ => noModalOpen s
  | .joinConversation o => noModalOpen s && s.offers.contains o
  | .clickAccept _ _ =>
    s.showChatModal && decide (s.activeTab = .incoming) &&
      selectedHasStatus s .pending
  | .clickReject _ _ =>
    s.showChatModal && decide (s.activeTab = .incoming) &&
      selectedHasStatus s .pending
  | .clickCancel _ _ =>
    s.showChatModal && decide (s.activeTab = .outgoing) &&
      selectedHasStatus s .pending
  | .clickReopen =>
    s.showChatModal && decide (s.activeTab = .outgoing) &&
      selectedHasStatus s .rejected
  | .submitConfirm _ => s.showEditOfferModal && s.selectedOffer.isSome
  | .saveEditedOffer _ =>
    s.showChatModal && decide (s.activeTab = .outgoing) &&
      selectedHasStatus s .pending
  | .closeEditModal => s.showEditOfferModal
  | .closeChatModal => s.showChatModal

/-- Effect of each event on the page state, from the source handlers. -/
def applyEvent (s : MyOffersPageState) : PageEvent → MyOffersPageState
  | .loadOffers fetched =>
    { s with offers := fetched,
             selectedOffer := refreshSelected s.selectedOffer fetched }
  | .switchTab t => { s with activeTab := t }
  | .joinConversation o =>
    { s with selectedOffer := some o, showChatModal := true }
  | .clickAccept updated fetched =>
    { s with selectedOffer := refreshSelected (some updated) fetched,
             offers := fetched }
  | .clickReject updated fetched =>
    { s with selectedOffer := refreshSelected (some updated) fetched,
             offers := fetched }
  | .clickCancel updated fetched =>
    { s with selectedOffer := refreshSelected (some updated) fetched,
             offers := fetched, showChatModal := false }
  | .clickReopen =>
    { s with showChatModal := false, isReopeningOffer := true,
             showEditOfferModal := true }
  | .submitConfirm fetched =>
    { s with offers := fetched, showEditOfferModal := false,
             selectedOffer := none, isReopeningOffer := false }
  | .saveEditedOffer fetched =>
    { s with offers := fetched,
             selectedOffer := refreshSelected s.selectedOffer fetched }
  | .closeEditModal =>
    { s with showEditOfferModal := false, selectedOffer := none,
             isReopeningOffer := false }
  | .closeChatModal =>
    { s with showChatModal := false, selectedOffer := none }

/-- The status-changing offer REST calls an event issues. -/
def eventRequests (s : MyOffersPageState) : PageEvent → List OfferRequest
  | .clickAccept _ _ =>
    match s.selectedOffer with
    | some o => [.acceptOffer o.id]
    | none => []
  | .clickReject _ _ =>
    match s.selectedOffer with
    | some o => [.rejectOffer o.id]
    | none => []
  | .clickCancel _ _ =>
    match s.selectedOffer with
    | some o => [.cancelOffer o.id]
    | none => []
  | .submitConfirm _ => [submitOfferRequest s.isReopeningOffer s.selectedOffer]
  | .saveEditedOffer _ =>
    match s.selectedOffer with
    | some o => [.updateOffer o.id]
    | none => []
  | _ => []

/-- States the page can reach from its initial state through enabled
events. -/
inductive Reachable : MyOffersPageState → Prop
  | init : Reachable initialPageState
  | step {s : MyOffersPageState} {e : PageEvent} : Reachable s →
      eventEnabled s e = true → Reachable (applyEvent s e)

/-- While the re-opening flag is set, the edit modal is open, the chat
modal is closed, and the selected offer is one the backend reported
REJECTED. -/
def ReopenInv (s : MyOffersPageState) : Prop :=
  s.isReopeningOffer = true →
    s.showEditOfferModal = true ∧ s.showChatModal = false ∧
      ∃ o, s.selectedOffer = some o ∧ o.status = .rejected

theorem selectedHasStatus_iff {s : MyOffersPageState} {st : OfferStatus} :
    selectedHasStatus s st = true ↔
      ∃ o, s.selectedOffer = some o ∧ o.status = st := by
  unfold selectedHasStatus
  match h : s.selectedOffer with
  | some o => simp [h]
  | none => simp [h]

theorem reachable_reopenInv {s : MyOffersPageState} (h : Reachable s) :
    ReopenInv s := by
  induction h with
  | init =>
    intro hr
    exact absurd hr (by decide)
  | step hs hen ih =>
    rename_i s e
    cases e with
    | loadOffers fetched =>
      intro hr
      simp only [applyEvent] at hr ⊢
      by_cases hro : s.isReopeningOffer = true
      · obtain ⟨hse, -, -⟩ := ih hro
        simp [eventEnabled, noModalOpen, hse] at hen
      · exact absurd hr hro
    | switchTab t =>
      intro hr
      simp only [applyEvent] at hr ⊢
      by_cases hro : s.isReopeningOffer = true
      · obtain ⟨hse, -, -⟩ := ih hro
        simp [eventEnabled, noModalOpen, hse] at hen
      · exact absurd hr hro
    | joinConversation o =>
      intro hr
      simp only [applyEvent] at hr ⊢
      by_cases hro : s.isReopeningOffer = true
      · obtain ⟨hse, -, -⟩ := ih hro
        simp [eventEnabled, noModalOpen, hse] at hen
      · exact absurd hr hro
    | clickAccept updated fetched =>
      intro hr
      simp only [applyEvent] at hr ⊢
      by_cases hro : s.isReopeningOffer = true
      · obtain ⟨-, hsc, -⟩ := ih hro
        simp [eventEnabled, hsc] at hen
      · exact absurd hr hro
    | clickReject updated fetched =>
      intro hr
      simp only [applyEvent] at hr ⊢
      by_cases hro : s.isReopeningOffer = true
      · obtain ⟨-, hsc, -⟩ := ih hro
        simp [eventEnabled, hsc] at hen
      · exact absurd hr hro
    | clickCancel updated fetched =>
      intro hr
      simp only [applyEvent] at hr ⊢
      by_cases hro : s.isReopeningOffer = true
      · obtain ⟨-, hsc, -⟩ := ih hro
        simp [eventEnabled, hsc] at hen
      · exact absurd hr hro
    | clickReopen =>
      intro hr
      simp only [applyEvent]
      simp only [eventEnabled, Bool.and_eq_true, decide_eq_true_eq] at hen
      obtain ⟨⟨-, -⟩, hsel⟩ := hen
      exact ⟨trivial, trivial, selectedHasStatus_iff.mp hsel⟩
    | submitConfirm fetched =>
      intro hr
      simp only [applyEvent] at hr
      exact absurd hr (by decide)
    | saveEditedOffer fetched =>
      intro hr
      simp only [applyEvent] at hr ⊢
      by_cases hro : s.isReopeningOffer = true
      · obtain ⟨-, hsc, -⟩ := ih hro
        simp [eventEnabled, hsc] at hen
      · exact absurd hr hro
    | closeEditModal =>
      intro hr
      simp only [applyEvent] at hr
      exact absurd hr (by decide)
    | closeChatModal =>
      intro hr
      simp only [applyEvent] at hr ⊢
      by_cases hro : s.isReopeningOffer = true
      · obtain ⟨-, hsc, -⟩ := ih hro
        simp [eventEnabled, hsc] at hen
      · exact absurd hr hro

/-- C7: The client never initiates a status change the displayed
status does not permit: the chat-mode modal offers *Re-open* only for a
REJECTED offer and edit/cancel/accept/reject only for a PENDING offer;
the displayed status is exactly the backend-returned one; and in every
reachable page state, a reopen request is issued only while the selected
offer's backend-returned status is REJECTED, and accept/reject/cancel
requests only while it is PENDING. -/
theorem offer_status_transitions_guarded :
    (∀ tab st, OfferAction.reopenOffer ∈ chatModalActions tab st →
      st = .rejected) ∧
    (∀ tab st a, a ∈ chatModalActions tab st → a ≠ .reopenOffer →
      st = .pending) ∧
    (∀ o : OfferResponse, displayedStatus o = o.status) ∧
    (∀ s e id, Reachable s → eventEnabled s e = true →
      OfferRequest.reopenOffer id ∈ eventRequests s e →
      ∃ o, s.selectedOffer = some o ∧ o.id = id ∧ o.status = .rejected) ∧
    (∀ s e id, Reachable s → eventEnabled s e = true →
      (OfferRequest.acceptOffer id ∈ eventRequests s e ∨
        OfferRequest.rejectOffer id ∈ eventRequests s e ∨
        OfferRequest.cancelOffer id ∈ eventRequests s e) →
      ∃ o, s.selectedOffer = some o ∧ o.id = id ∧ o.status = .pending) := by
  refine ⟨?_, ?_, fun o => rfl, ?_, ?_⟩
  · intro tab st hmem
    cases tab <;> cases st <;> simp [chatModalActions] at hmem <;> rfl
  · intro tab st a hmem hne
    cases tab <;> cases st <;> simp [chatModalActions] at hmem <;>
      first
        | rfl
        | exact absurd hmem hne
  · intro s e id hre hen hmem
    cases e with
    | clickAccept updated fetched =>
      match hsel : s.selectedOffer with
      | some o => simp [eventRequests, hsel] at hmem
      | none => simp [eventRequests, hsel] at hmem
    | clickReject updated fetched =>
      match hsel : s.selectedOffer with
      | some o => simp [eventRequests, hsel] at hmem
      | none => simp [eventRequests, hsel] at hmem
    | clickCancel updated fetched =>
      match hsel : s.selectedOffer with
      | some o => simp [eventRequests, hsel] at hmem
      | none => simp [eventRequests, hsel] at hmem
    | saveEditedOffer fetched =>
      match hsel : s.selectedOffer with
      | some o => simp [eventRequests, hsel] at hmem
      | none => simp [eventRequests, hsel] at hmem
    | submitConfirm fetched =>
      simp only [eventRequests, List.mem_singleton] at hmem
      match hsel : s.selectedOffer with
      | none =>
        rw [hsel] at hmem
        simp [submitOfferRequest] at hmem
      | some o =>
        rw [hsel] at hmem
        by_cases hro : s.isReopeningOffer = true
        · obtain ⟨-, -, o', hsel', hst'⟩ := reachable_reopenInv hre hro
          rw [hsel] at hsel'
          obtain rfl : o = o' := Option.some_inj.mp hsel'
          simp only [submitOfferRequest, if_pos hro,
            OfferRequest.reopenOffer.injEq] at hmem
          exact ⟨o, rfl, hmem.symm, hst'⟩
        · rw [Bool.not_eq_true] at hro
          simp [submitOfferRequest, hro] at hmem
    | loadOffers fetched => simp [eventRequests] at hmem
    | switchTab t => simp [eventRequests] at hmem
    | joinConversation o => simp [eventRequests] at hmem
    | clickReopen => simp [eventRequests] at hmem
    | closeEditModal => simp [eventRequests] at hmem
    | closeChatModal => simp [eventRequests] at hmem
  · intro s e id hre hen hmem
    cases e with
    | clickAccept updated fetched =>
      simp only [eventEnabled, Bool.and_eq_true] at hen
      obtain ⟨⟨-, -⟩, hsel⟩ := hen
      obtain ⟨o, ho, hst⟩ := selectedHasStatus_iff.mp hsel
      refine ⟨o, ho, ?_, hst⟩
      rcases hmem with h | h | h <;> simp [eventRequests, ho] at h <;>
        exact h.symm
    | clickReject updated fetched =>
      simp only [eventEnabled, Bool.and_eq_true] at hen
      obtain ⟨⟨-, -⟩, hsel⟩ := hen
      obtain ⟨o, ho, hst⟩ := selectedHasStatus_iff.mp hsel
      refine ⟨o, ho, ?_, hst⟩
      rcases hmem with h | h | h <;> simp [eventRequests, ho] at h <;>
        exact h.symm
    | clickCancel updated fetched =>
      simp only [eventEnabled, Bool.and_eq_true] at hen
      obtain ⟨⟨-, -⟩, hsel⟩ := hen
      obtain ⟨o, ho, hst⟩ := selectedHasStatus_iff.mp hsel
      refine ⟨o, ho, ?_, hst⟩
      rcases hmem with h | h | h <;> simp [eventRequests, ho] at h <;>
        exact h.symm
    | saveEditedOffer fetched =>
      rcases hmem with h | h | h <;>
        (match hsel : s.selectedOffer with
          | some o => simp [eventRequests, hsel] at h
          | none => simp [eventRequests, hsel] at h)
    | submitConfirm fetched =>
      exfalso
      simp only [eventRequests, List.mem_singleton] at hmem
      match hsel : s.selectedOffer with
      | none =>
        rw [hsel] at hmem
        rcases hmem with h | h | h <;> simp [submitOfferRequest] at h
      | some o =>
        rw [hsel] at hmem
        by_cases hro : s.isReopeningOffer = true
        · rcases hmem with h | h | h <;>
            simp [submitOfferRequest, hro] at h
        · rw [Bool.not_eq_true] at hro
          rcases hmem with h | h | h <;>
            simp [submitOfferRequest, hro] at h
    | loadOffers fetched =>
      rcases hmem with h | h | h <;> simp [eventRequests] at h
    | switchTab t =>
      rcases hmem with h | h | h <;> simp [eventRequests] at h
    | joinConversation o =>
      rcases hmem with h | h | h <;> simp [eventRequests] at h
    | clickReopen =>
      rcases hmem with h | h | h <;> simp [eventRequests] at h
    | closeEditModal =>
      rcases hmem with h | h | h <;> simp [eventRequests] at h
    | closeChatModal =>
      rcases hmem with h | h | h <;> simp [eventRequests] at h

/-- A concrete REJECTED offer for the C7 witness. -/
def offerC7 : OfferResponse := ⟨"offer-1".data, 5, "St. Mary".data, .rejected⟩

/-- The page state reached by loading `[offerC7]`, opening its chat modal
and clicking *Re-open Offer*. -/
def reopenStateC7 : MyOffersPageState :=
  applyEvent
    (applyEvent (applyEvent initialPageState (.loadOffers [offerC7]))
      (.joinConversation offerC7))
    .clickReopen

theorem reopenStateC7_reachable : Reachable reopenStateC7 :=
  .step (.step (.step .init (by decide)) (by decide)) (by decide)

/-- Witness for C7: in the concrete reachable state `reopenStateC7`,
confirming the edit modal is enabled, issues the reopen request, and the
theorem yields that the selected offer's backend status is REJECTED. -/
theorem offer_status_transitions_guarded_witness :
    Reachable reopenStateC7 ∧
    eventEnabled reopenStateC7 (.submitConfirm []) = true ∧
    OfferRequest.reopenOffer offerC7.id ∈
      eventRequests reopenStateC7 (.submitConfirm []) ∧
    (∃ o, reopenStateC7.selectedOffer = some o ∧ o.id = offerC7.id ∧
      o.status = .rejected) :=
  ⟨reopenStateC7_reachable, by decide, by decide,
    offer_status_transitions_guarded.2.2.2.1 reopenStateC7
      (.submitConfirm []) offerC7.id reopenStateC7_reachable
      (by decide) (by decide)⟩

end Kelox
